import Mathlib

/-!
Shallow embedding of the OpenAlex book-scraper service (`src/main.py`) in Lean 4.

The Python module consists of a handful of pure helpers (`pick_best_url`),
network-facing functions (`resolve_subject_id`, `request_with_backoff`,
`search_books_by_subject`) and the request handler (`get_books`).  The network
is abstracted as a `Transport` record mapping the exact query parameters the
code builds to upstream responses; retries are visible because the works
endpoint additionally receives the attempt index.  Python exceptions raised by
`requests.Response.raise_for_status` (which raises exactly for status codes in
`[400, 600)`) become an `Except` error carrying the status code; `time.sleep`
calls are recorded as an output list of durations (rationals, since
`random.random()` contributes a jitter in `[0,1)`); the unbounded `while` page
loop takes explicit fuel, with `none` marking runs the fuel cannot finish.
-/

namespace OA

/-- JSON string fields as Python sees them: absent (`none`) or present.
Python truthiness on a present string additionally rejects `""`. -/
def strTruthy : Option String → Bool
  | some s => !s.isEmpty
  | none => false

/-- The `primary_location` sub-object of a work: the two URL fields the code reads. -/
structure Location where
  pdf_url : Option String
  landing_page_url : Option String
deriving DecidableEq, Repr

/-- A work record as the code consumes it: only the fields `main.py` reads.
`ids_doi` is `work["ids"]["doi"]`; `publication_year` is `some y` exactly when
the JSON field is an integer (`isinstance(year, int)`), else `none`;
`authorships` holds, per authorship entry, the extracted
`authorship["author"]["display_name"]` (`none` when either level is missing). -/
structure Work where
  primary_location : Option Location
  ids_doi : Option String
  id : Option String
  display_name : Option String
  publication_year : Option Int
  language : Option String
  authorships : List (Option String)
deriving DecidableEq, Repr

/-- A row of the service's result list (`all_rows` entries in `main.py`). -/
structure Row where
  Title : String
  Authors : String
  Year : Int
  URL : String
  Subject : String
deriving DecidableEq, Repr

/-- Embedding of `pick_best_url` from `main.py`: prefer the primary location's `pdf_url`,
then its `landing_page_url`, then the record's DOI, then `work.get("id", "")`.
The first three are Python-truthiness tests (absent or `""` fails). -/
def pick_best_url (work : Work) : String :=
  let pl := work.primary_location.getD ⟨none, none⟩
  if strTruthy pl.pdf_url then pl.pdf_url.getD ""
  else if strTruthy pl.landing_page_url then pl.landing_page_url.getD ""
  else if strTruthy work.ids_doi then work.ids_doi.getD ""
  else work.id.getD ""

/-- Errors surfaced by the embedded code: `httpError s` models the
`requests.HTTPError` raised by `raise_for_status` on status `s` (and by the
post-loop `raise_for_status` in `request_with_backoff`); `nameError` models the
`NameError` the Python loop epilogue would hit with `max_retries = 0`. -/
inductive ReqError where
  | httpError (status : Nat)
  | nameError
deriving DecidableEq, Repr

/-- Python `requests.Response.raise_for_status`: raises exactly for `400 ≤ s < 600`. -/
def raise_for_status (s : Nat) : Except ReqError Unit :=
  if 400 ≤ s ∧ s < 600 then .error (.httpError s) else .ok ()

/-- Response of the `/works` endpoint as the code consumes it: the HTTP status
and the parsed `resp.json().get("results", [])` list. -/
structure WorksResponse where
  status_code : Nat
  results : List Work
deriving DecidableEq, Repr

/-- Body of the `for attempt in range(max_retries)` loop of
`request_with_backoff`.  `tr attempt` is the response the session's GET returns
on that attempt; `jit attempt` is the value `random.random()` produced there;
`remaining` counts the loop iterations still allowed (initially `max_retries`,
so the iterations run for `attempt = 0, …, max_retries - 1` exactly as
`range(max_retries)` does).  Output: the returned response or raised error,
plus the list of `time.sleep` durations performed.  `last` carries the status
of the most recent response so the post-loop `resp.raise_for_status()` (which
sees the final 429, or an unbound `resp` when `max_retries = 0`) is rendered
faithfully. -/
def backoffLoop (tr : Nat → WorksResponse) (jit : Nat → ℚ) :
    Nat → Nat → Option Nat → Except ReqError WorksResponse × List ℚ
  | _attempt, 0, last =>
    match last with
    | some s =>
      match raise_for_status s with
      | .error e => (.error e, [])
      | .ok _ => (.error .nameError, [])
    | none => (.error .nameError, [])
  | attempt, remaining + 1, _last =>
    let resp := tr attempt
    if resp.status_code = 429 then
      let rest := backoffLoop tr jit (attempt + 1) remaining (some 429)
      (rest.1, ((2 : ℚ) ^ attempt + jit attempt) :: rest.2)
    else
      match raise_for_status resp.status_code with
      | .error e => (.error e, [])
      | .ok _ => (.ok resp, [])

/-- Embedding of `request_with_backoff(session, url, params, max_retries=5)`
from `main.py`, with the session's per-attempt responses abstracted as `tr`. -/
def request_with_backoff (tr : Nat → WorksResponse) (jit : Nat → ℚ)
    (max_retries : Nat := 5) : Except ReqError WorksResponse × List ℚ :=
  backoffLoop tr jit 0 max_retries none

/-- Query parameters of the `/concepts` and `/topics` search calls built by
`resolve_subject_id`. -/
structure SearchParams where
  search : String
  per_page : Nat
  mailto : Option String
deriving DecidableEq, Repr

/-- Response of `/concepts` or `/topics` as `resolve_subject_id` consumes it:
the HTTP status and the ids of `data["results"]` (only result `[0]["id"]` and
list emptiness are read). -/
structure SearchResponse where
  status_code : Nat
  results : List String
deriving DecidableEq, Repr

/-- Query parameters of the `/works` calls built by `search_books_by_subject`. -/
structure WorksParams where
  filter : String
  per_page : Nat
  mailto : Option String
  page : Nat
deriving DecidableEq, Repr

/-- The upstream OpenAlex API abstracted: for each endpoint, a function from
the exact parameter record the code sends to the response.  `works` also takes
the attempt index of `request_with_backoff`, so rate-limited retries are
observable. -/
structure Transport where
  concepts : SearchParams → SearchResponse
  topics : SearchParams → SearchResponse
  works : WorksParams → Nat → WorksResponse

/-- Python `if mailto: params["mailto"] = mailto`: an absent or empty (falsy) mailto
is not sent. -/
def normMailto : Option String → Option String
  | some s => if s.isEmpty then none else some s
  | none => none

/-- Embedding of `resolve_subject_id` from `main.py`: search `/concepts` with `per-page=1`;
on a non-empty `results` list return its head's id tagged `"concepts.id"`;
otherwise search `/topics` the same way and tag `"topics.id"`; `(None, None)`
(here `none`) when both are empty.  Each response passes `raise_for_status`. -/
def resolve_subject_id (tr : Transport) (subject : String)
    (mailto : Option String) : Except ReqError (Option (String × String)) := do
  let params : SearchParams := ⟨subject, 1, normMailto mailto⟩
  let r := tr.concepts params
  let _ ← raise_for_status r.status_code
  match r.results with
  | cid :: _ => return some ("concepts.id", cid)
  | [] =>
    let r := tr.topics params
    let _ ← raise_for_status r.status_code
    match r.results with
    | tid :: _ => return some ("topics.id", tid)
    | [] => return none

/-- Python `work.get("display_name") or "N/A"`: Python `or` falls through on an
absent or empty string. -/
def orDefault (o : Option String) (d : String) : String :=
  match o with
  | some s => if s.isEmpty then d else s
  | none => d

/-- The row built for one work inside the page loop of
`search_books_by_subject`: title defaulted through Python `or`, year coerced
to `0` when not an integer, author display names filtered by truthiness and
joined with `", "`. -/
def mkRow (subject : String) (work : Work) (url : String) : Row where
  Title := orDefault work.display_name "N/A"
  Authors := String.intercalate ", "
    (work.authorships.filterMap fun o => if strTruthy o then o else none)
  Year := work.publication_year.getD 0
  URL := url
  Subject := subject

/-- The `for work in results` body of `search_books_by_subject`: skip works
whose `language` is not `"en"`, skip works with a falsy best URL, append the
built row, and `break` as soon as the accumulated count reaches `max_results`. -/
def processWorks (subject : String) (max_results : Nat) :
    List Work → List Row → List Row
  | [], acc => acc
  | work :: rest, acc =>
    if work.language ≠ some "en" then processWorks subject max_results rest acc
    else
      let url := pick_best_url work
      if url.isEmpty then processWorks subject max_results rest acc
      else
        let acc' := acc ++ [mkRow subject work url]
        if max_results ≤ acc'.length then acc'
        else processWorks subject max_results rest acc'

/-- The `while len(all_rows) < max_results` page loop of
`search_books_by_subject`.  `fuel` bounds the number of iterations the
embedding unfolds; `none` means the source loop has not exited within that
budget (the Python loop can spin forever on endless fully-filtered pages). -/
def pageLoop (tr : Transport) (jit : Nat → ℚ) (subject : String)
    (max_results : Nat) (filt : String) (mailto : Option String) :
    Nat → Nat → List Row → Option (Except ReqError (List Row))
  | fuel, page, all_rows =>
    if all_rows.length < max_results then
      match fuel with
      | 0 => none
      | fuel + 1 =>
        match request_with_backoff (tr.works ⟨filt, 50, normMailto mailto, page⟩) jit 5 with
        | (.error e, _) => some (.error e)
        | (.ok resp, _) =>
          if resp.results.isEmpty then some (.ok all_rows)
          else
            pageLoop tr jit subject max_results filt mailto fuel (page + 1)
              (processWorks subject max_results resp.results all_rows)
    else
      some (.ok all_rows)

/-- Embedding of `search_books_by_subject` from `main.py`: resolve the subject (an
unresolved subject returns `[]`, not an error), build the comma-joined filter
(`type:book`, the resolved key/id clause, the year range, and `is_oa:true`
when requested), then run the page loop from page 1 with no rows. -/
def search_books_by_subject (tr : Transport) (jit : Nat → ℚ) (fuel : Nat)
    (subject : String) (start_year : Int := 2021) (end_year : Int := 2025)
    (max_results : Nat := 50) (mailto : Option String := none)
    (oa_only : Bool := true) : Option (Except ReqError (List Row)) :=
  match resolve_subject_id tr subject mailto with
  | .error e => some (.error e)
  | .ok none => some (.ok [])
  | .ok (some (key, id_url)) =>
    let filter_parts := ["type:book", key ++ ":" ++ id_url,
      "publication_year:" ++ toString start_year ++ "-" ++ toString end_year]
    let filter_parts := filter_parts ++ if oa_only then ["is_oa:true"] else []
    pageLoop tr jit subject max_results (String.intercalate "," filter_parts)
      mailto fuel 1 []

/-- Insert a row into an already Year-descending-sorted list, before the first
row whose Year does not exceed it, so earlier rows with an equal Year stay
earlier. -/
def insertYearDesc (x : Row) : List Row → List Row
  | [] => [x]
  | y :: ys => if y.Year ≤ x.Year then x :: y :: ys else y :: insertYearDesc x ys

/-- Python `results.sort(key=lambda x: x["Year"], reverse=True)`: CPython's list sort
is stable, also with `reverse=True`, so its observable result is the unique
stable Year-descending sort, rendered here as a stable insertion sort. -/
def sortYearDesc : List Row → List Row
  | [] => []
  | x :: xs => insertYearDesc x (sortYearDesc xs)

/-- What the `/books` handler hands to the web framework: a JSON row array
(`JSONResponse(content=results)`, status 200), a JSON message object with an
explicit status (the 404 branch), or a CSV attachment of the rows. -/
inductive ApiResponse where
  | json (status : Nat) (rows : List Row)
  | message (status : Nat) (msg : String)
  | csv (filename : String) (rows : List Row)
deriving DecidableEq, Repr

/-- The HTTP status an `ApiResponse` carries (CSV streams are plain 200). -/
def ApiResponse.statusOf : ApiResponse → Nat
  | .json s _ => s
  | .message s _ => s
  | .csv _ _ => 200

/-- The rows an `ApiResponse` carries. -/
def ApiResponse.rowsOf : ApiResponse → List Row
  | .json _ rows => rows
  | .message _ _ => []
  | .csv _ rows => rows

/-- Python `str.split(",")` on the character list: split into groups at every
comma (an empty input gives one empty group, as in Python). -/
def splitOnComma : List Char → List (List Char)
  | [] => [[]]
  | c :: cs =>
    if c = ',' then [] :: splitOnComma cs
    else
      match splitOnComma cs with
      | [] => [[c]]
      | g :: gs => (c :: g) :: gs

/-- Python `str.strip()`: drop whitespace from both ends. -/
def pyStrip (cs : List Char) : List Char :=
  ((cs.dropWhile Char.isWhitespace).reverse.dropWhile Char.isWhitespace).reverse

/-- Python `[s.strip() for s in subjects.split(",") if s.strip()]`. -/
def splitSubjects (subjects : String) : List String :=
  (((splitOnComma subjects.toList).map fun cs => String.mk (pyStrip cs)).filter
    fun s => !s.isEmpty)

/-- The `for subject in subject_list` loop of `get_books`: fetch with the
requested OA flag, extend `results`, and when OA was requested and the fetch
brought back fewer than `max_results // 5` rows, fetch again with OA disabled
and extend with those rows too. -/
def subjectLoop (tr : Transport) (jit : Nat → ℚ) (fuel : Nat)
    (start_year end_year : Int) (max_results : Nat) (mailto : Option String)
    (oa_only : Bool) : List String → List Row → Option (Except ReqError (List Row))
  | [], results => some (.ok results)
  | subject :: rest, results =>
    match search_books_by_subject tr jit fuel subject start_year end_year
        max_results mailto oa_only with
    | none => none
    | some (.error e) => some (.error e)
    | some (.ok rows) =>
      if oa_only ∧ rows.length < max_results / 5 then
        match search_books_by_subject tr jit fuel subject start_year end_year
            max_results mailto false with
        | none => none
        | some (.error e) => some (.error e)
        | some (.ok rows2) =>
          subjectLoop tr jit fuel start_year end_year max_results mailto
            oa_only rest (results ++ rows ++ rows2)
      else
        subjectLoop tr jit fuel start_year end_year max_results mailto
          oa_only rest (results ++ rows)

/-- The `/books` handler `get_books` from `main.py`: split the subjects, run
the per-subject loop, answer 404 with a message when nothing accumulated,
otherwise sort by Year descending and emit CSV (with the derived filename) or
the JSON row array. -/
def get_books (tr : Transport) (jit : Nat → ℚ) (fuel : Nat) (subjects : String)
    (start_year : Int := 2021) (end_year : Int := 2025) (max_results : Nat := 50)
    (mailto : Option String := none) (oa_only : Bool := true)
    (format : String := "json") : Option (Except ReqError ApiResponse) :=
  match subjectLoop tr jit fuel start_year end_year max_results mailto oa_only
      (splitSubjects subjects) [] with
  | none => none
  | some (.error e) => some (.error e)
  | some (.ok results) =>
    if results.isEmpty then
      some (.ok (.message 404 "No results found for given subjects."))
    else
      if format = "csv" then
        some (.ok (.csv
          ("books_" ++ String.intercalate "_" (splitSubjects subjects) ++ ".csv")
          (sortYearDesc results)))
      else
        some (.ok (.json 200 (sortYearDesc results)))

/-- Equality of `Except` results is decidable componentwise (used to evaluate
the embedded functions on concrete inputs). -/
instance decEqExcept {ε α : Type} [DecidableEq ε] [DecidableEq α] :
    DecidableEq (Except ε α) := fun a b =>
  match a, b with
  | .error e, .error f =>
    if h : e = f then .isTrue (by rw [h]) else .isFalse fun hh => h (Except.error.inj hh)
  | .error _, .ok _ => .isFalse fun hh => Except.noConfusion hh
  | .ok _, .error _ => .isFalse fun hh => Except.noConfusion hh
  | .ok x, .ok y =>
    if h : x = y then .isTrue (by rw [h]) else .isFalse fun hh => h (Except.ok.inj hh)

/-! Concrete upstream transports used to exercise the definitions. -/

/-- An English-language work with a direct PDF link, a title and one author. -/
def wEn (y : Int) (u : String) : Work :=
  ⟨some ⟨some u, none⟩, none, none, some "T", some y, some "en", [some "A"]⟩

/-- An English-language work with a link but no integer `publication_year`. -/
def wNoYear : Work :=
  ⟨some ⟨some "u", none⟩, none, none, some "T", none, some "en", []⟩

/-- An upstream on which every search and works query succeeds with zero
results. -/
def exTrEmpty : Transport :=
  ⟨fun _ => ⟨200, []⟩, fun _ => ⟨200, []⟩, fun _ _ => ⟨200, []⟩⟩

/-- An upstream whose concept search is empty but whose topic search has one
hit. -/
def exTrTopics : Transport :=
  ⟨fun _ => ⟨200, []⟩, fun _ => ⟨200, ["T1"]⟩, fun _ _ => ⟨200, []⟩⟩

/-- An upstream that resolves every subject to concept `C1` and answers every
works page with the same three English works, so only the caller's cap stops
pagination. -/
def exTrCap : Transport :=
  ⟨fun _ => ⟨200, ["C1"]⟩, fun _ => ⟨200, []⟩,
    fun _ _ => ⟨200, [wEn 2022 "u1", wEn 2023 "u2", wEn 2024 "u3"]⟩⟩

/-- An upstream whose single work record lacks an integer publication year. -/
def exTrNoYear : Transport :=
  ⟨fun _ => ⟨200, ["C1"]⟩, fun _ => ⟨200, []⟩,
    fun p _ => if p.page = 1 then ⟨200, [wNoYear]⟩ else ⟨200, []⟩⟩

/-- The filter expression `search_books_by_subject` sends for concept `C1`,
years 2021–2025, with the open-access clause. -/
def oaFilter : String := "type:book,concepts.id:C1,publication_year:2021-2025,is_oa:true"

/-- An upstream with one open-access work but ten non-open-access works per
subject: open-access-filtered queries find a single work, unfiltered ones find
ten, so the orchestrator's fallback heuristic fires. -/
def exTrFallback : Transport :=
  ⟨fun _ => ⟨200, ["C1"]⟩, fun _ => ⟨200, []⟩,
    fun p _ =>
      if p.filter = oaFilter then
        (if p.page = 1 then ⟨200, [wEn 2022 "u0"]⟩ else ⟨200, []⟩)
      else
        (if p.page = 1 then ⟨200, List.replicate 10 (wEn 2022 "u")⟩ else ⟨200, []⟩)⟩

/-- An upstream returning one page of three works with interleaved years, to
exercise the final sort. -/
def exTrSort : Transport :=
  ⟨fun _ => ⟨200, ["C1"]⟩, fun _ => ⟨200, []⟩,
    fun p _ =>
      if p.page = 1 then ⟨200, [wEn 2024 "a", wEn 2022 "b", wEn 2023 "c"]⟩
      else ⟨200, []⟩⟩

/-! Helper lemmas about the backoff loop. -/

/-- Running the loop from attempt `a` when attempts `a, …, k-1` are
rate-limited and attempt `k` succeeds: the loop returns attempt `k`'s
response after sleeping once per rate-limited attempt. -/
lemma backoffLoop_run_to_ok (tr : Nat → WorksResponse) (jit : Nat → ℚ) (k : Nat)
    (h429 : ∀ i, i < k → (tr i).status_code = 429)
    (hne : (tr k).status_code ≠ 429)
    (hok : raise_for_status (tr k).status_code = .ok ()) :
    ∀ r a last, a ≤ k → k < a + r →
      backoffLoop tr jit a r last
        = (.ok (tr k), (List.range' a (k - a)).map fun i => (2 : ℚ) ^ i + jit i) := by
  intro r
  induction r with
  | zero => intro a last hak hkr; omega
  | succ r ih =>
    intro a last hak hkr
    rcases Nat.lt_or_ge a k with hlt | hge
    · have ha : (tr a).status_code = 429 := h429 a hlt
      rw [backoffLoop, if_pos ha, ih (a + 1) (some 429) hlt (by omega)]
      have hk : k - a = (k - (a + 1)) + 1 := by omega
      rw [hk, List.range'_succ, List.map_cons]
    · have hak' : a = k := by omega
      subst hak'
      rw [backoffLoop, if_neg hne, hok]
      simp

/-- Running the loop when every attempt it can make is rate-limited: after the
final iteration the source re-raises on the last (429) response. -/
lemma backoffLoop_all429 (tr : Nat → WorksResponse) (jit : Nat → ℚ) :
    ∀ r a last, 0 < r → (∀ i, a ≤ i → i < a + r → (tr i).status_code = 429) →
      (backoffLoop tr jit a r last).1 = .error (.httpError 429) := by
  intro r
  induction r with
  | zero => intro a last h0; omega
  | succ r ih =>
    intro a last _ h429
    have ha : (tr a).status_code = 429 := h429 a le_rfl (by omega)
    rw [backoffLoop, if_pos ha]
    rcases Nat.eq_zero_or_pos r with hr | hr
    · subst hr
      rw [backoffLoop]
      simp [raise_for_status]
    · exact ih (a + 1) (some 429) hr fun i h1 h2 => h429 i (by omega) (by omega)

/-- C2: with a transport that answers 429 on exactly the first `k < 5`
attempts and succeeds (200) on attempt `k`, `request_with_backoff` returns
attempt `k`'s response and sleeps exactly `k` times, the `a`-th sleep lasting
`2 ^ a` plus that attempt's jitter, hence lying in `[2 ^ a, 2 ^ a + 1)` when
the jitter is in `[0, 1)`; with a transport answering 429 on all 5 attempts it
raises an HTTP 429 error rather than looping on. -/
theorem request_with_backoff_c2 (tr tr5 : Nat → WorksResponse) (jit : Nat → ℚ)
    (k : Nat) (hk : k < 5)
    (h429 : ∀ i, i < k → (tr i).status_code = 429)
    (h200 : (tr k).status_code = 200)
    (hjit : ∀ i, 0 ≤ jit i ∧ jit i < 1)
    (h5 : ∀ i, i < 5 → (tr5 i).status_code = 429) :
    request_with_backoff tr jit 5
        = (.ok (tr k), (List.range k).map fun a => (2 : ℚ) ^ a + jit a)
      ∧ (∀ s ∈ (request_with_backoff tr jit 5).2,
          ∃ a, a < k ∧ (2 : ℚ) ^ a ≤ s ∧ s < (2 : ℚ) ^ a + 1)
      ∧ (request_with_backoff tr5 jit 5).1 = .error (.httpError 429) := by
  have hmain : request_with_backoff tr jit 5
      = (.ok (tr k), (List.range k).map fun a => (2 : ℚ) ^ a + jit a) := by
    rw [request_with_backoff,
      backoffLoop_run_to_ok tr jit k h429 (by rw [h200]; decide)
        (by rw [h200]; rfl) 5 0 none (Nat.zero_le k) (by omega)]
    rw [List.range_eq_range', Nat.sub_zero]
  refine ⟨hmain, ?_, ?_⟩
  · intro s hs
    rw [hmain] at hs
    simp only [List.mem_map, List.mem_range] at hs
    obtain ⟨a, ha, rfl⟩ := hs
    exact ⟨a, ha, by linarith [(hjit a).1], by linarith [(hjit a).2]⟩
  · exact backoffLoop_all429 tr5 jit 5 0 none (by omega)
      fun i _ h2 => h5 i (by omega)

/-- Witness for C2 at `k = 2`: two 429s then a 200, constant jitter `1/2`. -/
theorem request_with_backoff_c2_witness :
    request_with_backoff (fun i => if i < 2 then ⟨429, []⟩ else ⟨200, []⟩)
        (fun _ => (1 : ℚ) / 2) 5
      = (.ok ((fun i => if i < 2 then (⟨429, []⟩ : WorksResponse) else ⟨200, []⟩) 2),
         (List.range 2).map fun a => (2 : ℚ) ^ a + (fun _ => (1 : ℚ) / 2) a) ∧
    (request_with_backoff (fun _ => ⟨429, []⟩) (fun _ => (1 : ℚ) / 2) 5).1
      = .error (.httpError 429) := by
  have h := request_with_backoff_c2
    (fun i => if i < 2 then ⟨429, []⟩ else ⟨200, []⟩) (fun _ => ⟨429, []⟩)
    (fun _ => (1 : ℚ) / 2) 2 (by decide)
    (fun i hi => by interval_cases i <;> rfl) rfl
    (fun i => by norm_num) (fun i _ => rfl)
  exact ⟨h.1, h.2.2⟩

/-- Counterexample to C3 as stated: status 304 is neither a success (2xx) nor
429, yet the requester does not fail — `raise_for_status` raises only for
statuses in `[400, 600)`, so the 304 response is returned as a success, with
no retry and no sleep. -/
theorem request_with_backoff_c3_counterexample :
    (¬ (200 ≤ 304 ∧ 304 < 300) ∧ 304 ≠ 429) ∧
      request_with_backoff (fun _ => ⟨304, []⟩) (fun _ => 0) 5
        = (.ok ⟨304, []⟩, []) := by
  exact ⟨by decide, rfl⟩

/-- C3 amended: a first-attempt status in `[400, 600)` other than 429 makes
the requester fail immediately with an error carrying that status, with no
retry and no sleep; a first-attempt status outside `[400, 600)` and other than
429 is returned as a success on the first attempt, likewise with no retry and
no sleep. -/
theorem request_with_backoff_c3 (tr : Nat → WorksResponse) (jit : Nat → ℚ)
    (s : Nat) (h0 : (tr 0).status_code = s) (hs : s ≠ 429) :
    (400 ≤ s ∧ s < 600 →
      request_with_backoff tr jit 5 = (.error (.httpError s), []))
    ∧ (¬ (400 ≤ s ∧ s < 600) →
      request_with_backoff tr jit 5 = (.ok (tr 0), [])) := by
  constructor <;> intro h <;>
    simp [request_with_backoff, backoffLoop, h0, hs, raise_for_status, h]

/-- Witness for C3 at statuses 500 (fails immediately) and 304 (succeeds). -/
theorem request_with_backoff_c3_witness :
    request_with_backoff (fun _ => ⟨500, []⟩) (fun _ => 0) 5
        = (.error (.httpError 500), []) ∧
    request_with_backoff (fun _ => ⟨301, []⟩) (fun _ => 0) 5
        = (.ok ((fun _ => (⟨301, []⟩ : WorksResponse)) 0), []) := by
  exact ⟨(request_with_backoff_c3 (fun _ => ⟨500, []⟩) (fun _ => 0) 500 rfl
      (by decide)).1 (by decide),
    (request_with_backoff_c3 (fun _ => ⟨301, []⟩) (fun _ => 0) 301 rfl
      (by decide)).2 (by decide)⟩

/-- A truthy optional string is some nonempty string, and defaulting it to
`""` keeps it nonempty. -/
lemma strTruthy_getD_ne (o : Option String) (h : strTruthy o = true) :
    o.getD "" ≠ "" := by
  match o with
  | some s =>
    simp only [strTruthy, Bool.not_eq_true'] at h
    simp only [Option.getD_some]
    intro hs
    rw [hs] at h
    exact absurd h (by decide)
  | none => simp [strTruthy] at h

/-- C10: `pick_best_url` follows the fixed priority `pdf_url`,
`landing_page_url`, DOI, record id, defaulting to `""`; consequently it yields
the empty string (the only value the caller excludes a work for) exactly when
all four fields are absent or empty. -/
theorem pick_best_url_c10 (work : Work) (pl : Location)
    (hpl : work.primary_location.getD ⟨none, none⟩ = pl) :
    (strTruthy pl.pdf_url = true → pick_best_url work = pl.pdf_url.getD "")
    ∧ (strTruthy pl.pdf_url = false → strTruthy pl.landing_page_url = true →
        pick_best_url work = pl.landing_page_url.getD "")
    ∧ (strTruthy pl.pdf_url = false → strTruthy pl.landing_page_url = false →
        strTruthy work.ids_doi = true → pick_best_url work = work.ids_doi.getD "")
    ∧ (strTruthy pl.pdf_url = false → strTruthy pl.landing_page_url = false →
        strTruthy work.ids_doi = false → pick_best_url work = work.id.getD "")
    ∧ (pick_best_url work = "" ↔
        strTruthy pl.pdf_url = false ∧ strTruthy pl.landing_page_url = false
          ∧ strTruthy work.ids_doi = false ∧ work.id.getD "" = "") := by
  unfold pick_best_url
  rw [hpl]
  refine ⟨?_, ?_, ?_, ?_, ?_⟩
  · intro h1; rw [if_pos h1]
  · intro h1 h2; rw [if_neg (by simp [h1]), if_pos h2]
  · intro h1 h2 h3; rw [if_neg (by simp [h1]), if_neg (by simp [h2]), if_pos h3]
  · intro h1 h2 h3
    rw [if_neg (by simp [h1]), if_neg (by simp [h2]), if_neg (by simp [h3])]
  · constructor
    · intro h
      by_cases h1 : strTruthy pl.pdf_url
      · exact absurd (by rwa [if_pos h1] at h) (strTruthy_getD_ne _ h1)
      · rw [if_neg (by simp [h1])] at h
        by_cases h2 : strTruthy pl.landing_page_url
        · exact absurd (by rwa [if_pos h2] at h) (strTruthy_getD_ne _ h2)
        · rw [if_neg (by simp [h2])] at h
          by_cases h3 : strTruthy work.ids_doi
          · exact absurd (by rwa [if_pos h3] at h) (strTruthy_getD_ne _ h3)
          · rw [if_neg (by simp [h3])] at h
            exact ⟨by simpa using h1, by simpa using h2, by simpa using h3, h⟩
    · rintro ⟨h1, h2, h3, h4⟩
      rw [if_neg (by simp [h1]), if_neg (by simp [h2]), if_neg (by simp [h3]), h4]

/-- Witness for C10: a work whose only link field is a DOI resolves to the
DOI; a work with none of the four fields resolves to `""`. -/
theorem pick_best_url_c10_witness :
    pick_best_url ⟨none, some "doi:1", none, none, none, none, []⟩
        = (some "doi:1").getD ""
      ∧ (pick_best_url ⟨none, none, some "", none, none, none, []⟩ = "" ↔
          strTruthy (none : Option String) = false
            ∧ strTruthy (none : Option String) = false
            ∧ strTruthy (none : Option String) = false
            ∧ (some "").getD "" = "") := by
  exact ⟨(pick_best_url_c10 ⟨none, some "doi:1", none, none, none, none, []⟩
      ⟨none, none⟩ rfl).2.2.1 rfl rfl rfl,
    (pick_best_url_c10 ⟨none, none, some "", none, none, none, []⟩
      ⟨none, none⟩ rfl).2.2.2.2⟩

/-! Helper lemmas about the page loop and its per-page body. -/

/-- The per-page body never pushes the accumulator past the cap: starting
strictly below `max_results`, it ends at or below it (the inner `break` fires
the moment the cap is reached). -/
lemma processWorks_length_le (subject : String) (max_results : Nat) :
    ∀ ws acc, acc.length < max_results →
      (processWorks subject max_results ws acc).length ≤ max_results := by
  intro ws
  induction ws with
  | nil => intro acc hacc; rw [processWorks]; omega
  | cons work rest ih =>
    intro acc hacc
    rw [processWorks]
    by_cases hl : work.language ≠ some "en"
    · rw [if_pos hl]; exact ih acc hacc
    · rw [if_neg hl]
      by_cases hu : (pick_best_url work).isEmpty
      · rw [if_pos hu]; exact ih acc hacc
      · rw [if_neg hu]
        simp only
        by_cases hc : max_results ≤ (acc ++ [mkRow subject work (pick_best_url work)]).length
        · rw [if_pos hc]
          simp only [List.length_append, List.length_singleton]
          omega
        · rw [if_neg hc]
          exact ih _ (by omega)

/-- Every row the per-page body adds to the accumulator is built (by `mkRow`)
from some work of the page. -/
lemma processWorks_mem (subject : String) (max_results : Nat) :
    ∀ ws acc r, r ∈ processWorks subject max_results ws acc →
      r ∈ acc ∨ ∃ w ∈ ws, r = mkRow subject w (pick_best_url w) := by
  intro ws
  induction ws with
  | nil => intro acc r hr; rw [processWorks] at hr; exact Or.inl hr
  | cons work rest ih =>
    intro acc r hr
    rw [processWorks] at hr
    by_cases hl : work.language ≠ some "en"
    · rw [if_pos hl] at hr
      rcases ih acc r hr with h | ⟨w, hw, he⟩
      · exact Or.inl h
      · exact Or.inr ⟨w, List.mem_cons_of_mem _ hw, he⟩
    · rw [if_neg hl] at hr
      by_cases hu : (pick_best_url work).isEmpty
      · rw [if_pos hu] at hr
        rcases ih acc r hr with h | ⟨w, hw, he⟩
        · exact Or.inl h
        · exact Or.inr ⟨w, List.mem_cons_of_mem _ hw, he⟩
      · rw [if_neg hu] at hr
        simp only at hr
        by_cases hc : max_results ≤ (acc ++ [mkRow subject work (pick_best_url work)]).length
        · rw [if_pos hc] at hr
          rcases List.mem_append.1 hr with h | h
          · exact Or.inl h
          · exact Or.inr ⟨work, List.mem_cons_self _ _, by simpa using h⟩
        · rw [if_neg hc] at hr
          rcases ih _ r hr with h | ⟨w, hw, he⟩
          · rcases List.mem_append.1 h with h | h
            · exact Or.inl h
            · exact Or.inr ⟨work, List.mem_cons_self _ _, by simpa using h⟩
          · exact Or.inr ⟨w, List.mem_cons_of_mem _ hw, he⟩

/-- A response the backoff requester returns successfully is the transport's
response at some attempt. -/
lemma backoffLoop_ok_src (trf : Nat → WorksResponse) (jit : Nat → ℚ) :
    ∀ r a last resp, (backoffLoop trf jit a r last).1 = .ok resp →
      ∃ i, resp = trf i := by
  intro r
  induction r with
  | zero =>
    intro a last resp h
    rw [backoffLoop.eq_def] at h
    rcases last with _ | s
    · simp at h
    · simp only at h
      cases hs : raise_for_status s <;> simp [hs] at h
  | succ r ih =>
    intro a last resp h
    rw [backoffLoop] at h
    by_cases h429 : (trf a).status_code = 429
    · rw [if_pos h429] at h
      exact ih (a + 1) (some 429) resp h
    · rw [if_neg h429] at h
      cases hs : raise_for_status (trf a).status_code with
      | error e => simp [hs] at h
      | ok u => rw [hs] at h; simp at h; exact ⟨a, h.symm⟩

/-- When the page loop finishes with a row list, starting from an accumulator
at or below the cap, the final list stays at or below the cap; moreover every
row of the final list was in the accumulator or is built from a work of some
works-endpoint response of the transport. -/
lemma pageLoop_ok_spec (tr : Transport) (jit : Nat → ℚ) (subject : String)
    (max_results : Nat) (filt : String) (mailto : Option String) :
    ∀ fuel page acc rows, acc.length ≤ max_results →
      pageLoop tr jit subject max_results filt mailto fuel page acc
        = some (.ok rows) →
      rows.length ≤ max_results ∧
        ∀ r ∈ rows, r ∈ acc ∨ ∃ p i w, w ∈ (tr.works p i).results ∧
          r = mkRow subject w (pick_best_url w) := by
  intro fuel
  induction fuel with
  | zero =>
    intro page acc rows hacc h
    rw [pageLoop] at h
    by_cases hlt : acc.length < max_results
    · rw [if_pos hlt] at h; simp at h
    · rw [if_neg hlt] at h
      simp only [Option.some_inj, Except.ok.injEq] at h
      subst h
      exact ⟨hacc, fun r hr => Or.inl hr⟩
  | succ fuel ih =>
    intro page acc rows hacc h
    rw [pageLoop] at h
    by_cases hlt : acc.length < max_results
    · rw [if_pos hlt] at h
      rcases hreq : request_with_backoff
          (tr.works ⟨filt, 50, normMailto mailto, page⟩) jit 5 with ⟨res, sleeps⟩
      rw [hreq] at h
      cases res with
      | error e => simp at h
      | ok resp =>
        simp only at h
        by_cases hres : resp.results.isEmpty
        · rw [if_pos hres] at h
          simp only [Option.some_inj, Except.ok.injEq] at h
          subst h
          exact ⟨hacc, fun r hr => Or.inl hr⟩
        · rw [if_neg hres] at h
          have hsrc : ∃ i, resp = tr.works ⟨filt, 50, normMailto mailto, page⟩ i :=
            backoffLoop_ok_src _ jit 5 0 none resp (by rw [← request_with_backoff, hreq])
          obtain ⟨i, hi⟩ := hsrc
          have hlen := processWorks_length_le subject max_results resp.results acc hlt
          obtain ⟨h1, h2⟩ := ih (page + 1) _ rows hlen h
          refine ⟨h1, fun r hr => ?_⟩
          rcases h2 r hr with hmem | hbuilt
          · rcases processWorks_mem subject max_results resp.results acc r hmem with
              hin | ⟨w, hw, he⟩
            · exact Or.inl hin
            · exact Or.inr ⟨⟨filt, 50, normMailto mailto, page⟩, i, w, by rwa [← hi], he⟩
          · exact Or.inr hbuilt
    · rw [if_neg hlt] at h
      simp only [Option.some_inj, Except.ok.injEq] at h
      subst h
      exact ⟨hacc, fun r hr => Or.inl hr⟩

/-- A status below 400 passes `raise_for_status`. -/
lemma raise_for_status_lt (s : Nat) (h : s < 400) : raise_for_status s = .ok () := by
  rw [raise_for_status, if_neg]
  omega

/-- Summary of a terminating per-subject fetch: the cap is respected, every
row is tagged with the fetched subject, and every row is built by `mkRow` from
some work of some works-endpoint response. -/
lemma search_ok_spec (tr : Transport) (jit : Nat → ℚ) (fuel : Nat)
    (subject : String) (start_year end_year : Int) (max_results : Nat)
    (mailto : Option String) (oa_only : Bool) (rows : List Row)
    (h : search_books_by_subject tr jit fuel subject start_year end_year
      max_results mailto oa_only = some (.ok rows)) :
    rows.length ≤ max_results ∧
      ∀ r ∈ rows, r.Subject = subject ∧ ∃ p i w, w ∈ (tr.works p i).results ∧
        r = mkRow subject w (pick_best_url w) := by
  rw [search_books_by_subject] at h
  cases hres : resolve_subject_id tr subject mailto with
  | error e => rw [hres] at h; simp at h
  | ok o =>
    rw [hres] at h
    match o with
    | none =>
      simp only [Option.some_inj, Except.ok.injEq] at h
      rw [← h]
      exact ⟨by simp, by simp⟩
    | some (key, id_url) =>
      simp only at h
      obtain ⟨h1, h2⟩ := pageLoop_ok_spec tr jit subject max_results _ mailto
        fuel 1 [] rows (by simp) h
      refine ⟨h1, fun r hr => ?_⟩
      rcases h2 r hr with hin | ⟨p, i, w, hw, he⟩
      · simp at hin
      · exact ⟨by rw [he]; rfl, p, i, w, hw, he⟩

/-- C1: whenever the per-subject fetch terminates with a row list, that list
has at most `max_results` rows — the page loop accumulates only while below
the cap and the inner `break` stops appending the moment the cap is reached,
so the cap is never overshot. -/
theorem search_books_by_subject_c1 (tr : Transport) (jit : Nat → ℚ)
    (fuel : Nat) (subject : String) (start_year end_year : Int)
    (max_results : Nat) (mailto : Option String) (oa_only : Bool)
    (rows : List Row)
    (h : search_books_by_subject tr jit fuel subject start_year end_year
      max_results mailto oa_only = some (.ok rows)) :
    rows.length ≤ max_results := by
  rw [search_books_by_subject] at h
  cases hres : resolve_subject_id tr subject mailto with
  | error e => rw [hres] at h; simp at h
  | ok o =>
    rw [hres] at h
    match o with
    | none =>
      simp only [Option.some_inj, Except.ok.injEq] at h
      rw [← h]
      simp
    | some (key, id_url) =>
      simp only at h
      exact (pageLoop_ok_spec tr jit subject max_results _ mailto fuel 1 [] rows
        (by simp) h).1

/-- Witness for C1: against `exTrCap` (endless three-work pages) with the cap
set to 2, the fetch stops at exactly 2 rows. -/
theorem search_books_by_subject_c1_witness :
    ([⟨"T", "A", 2022, "u1", "X"⟩, ⟨"T", "A", 2023, "u2", "X"⟩] : List Row).length ≤ 2 :=
  search_books_by_subject_c1 exTrCap (fun _ => 0) 2 "X" 2021 2025 2 none true
    [⟨"T", "A", 2022, "u1", "X"⟩, ⟨"T", "A", 2023, "u2", "X"⟩] (by decide)

/-- C4: when the concepts search of a subject succeeds with zero results and
the topics search has a top hit, the resolver returns that hit tagged
`topics.id`; when both searches succeed with zero results, the resolver
returns the not-found value and the per-subject fetch returns the empty row
list without an error. -/
theorem resolve_subject_id_c4 (tra trb : Transport) (jit : Nat → ℚ) (fuel : Nat)
    (subject : String) (start_year end_year : Int) (max_results : Nat)
    (mailto : Option String) (oa_only : Bool) (tid : String) (rest : List String)
    (hca : (tra.concepts ⟨subject, 1, normMailto mailto⟩).status_code = 200)
    (hcr : (tra.concepts ⟨subject, 1, normMailto mailto⟩).results = [])
    (hta : (tra.topics ⟨subject, 1, normMailto mailto⟩).status_code = 200)
    (htr : (tra.topics ⟨subject, 1, normMailto mailto⟩).results = tid :: rest)
    (hcb : (trb.concepts ⟨subject, 1, normMailto mailto⟩).status_code = 200)
    (hcrb : (trb.concepts ⟨subject, 1, normMailto mailto⟩).results = [])
    (htb : (trb.topics ⟨subject, 1, normMailto mailto⟩).status_code = 200)
    (htrb : (trb.topics ⟨subject, 1, normMailto mailto⟩).results = []) :
    resolve_subject_id tra subject mailto = .ok (some ("topics.id", tid))
    ∧ resolve_subject_id trb subject mailto = .ok none
    ∧ search_books_by_subject trb jit fuel subject start_year end_year
        max_results mailto oa_only = some (.ok []) := by
  have h200 : raise_for_status 200 = .ok () := raise_for_status_lt 200 (by omega)
  have hb : resolve_subject_id trb subject mailto = .ok none := by
    rw [resolve_subject_id]
    rw [hcb, h200, hcrb]
    simp only [Except.bind]
    rw [htb, h200, htrb]
    rfl
  refine ⟨?_, hb, ?_⟩
  · rw [resolve_subject_id]
    rw [hca, h200, hcr]
    simp only [Except.bind]
    rw [hta, h200, htr]
    rfl
  · rw [search_books_by_subject, hb]

/-- Witness for C4: `exTrTopics` (concepts empty, topics hit `T1`) resolves to
`topics.id, T1`; `exTrEmpty` resolves to none and fetches no rows. -/
theorem resolve_subject_id_c4_witness :
    resolve_subject_id exTrTopics "X" none = .ok (some ("topics.id", "T1"))
    ∧ resolve_subject_id exTrEmpty "X" none = .ok none
    ∧ search_books_by_subject exTrEmpty (fun _ => 0) 1 "X" 2021 2025 50 none true
        = some (.ok []) :=
  resolve_subject_id_c4 exTrTopics exTrEmpty (fun _ => 0) 1 "X" 2021 2025 50
    none true "T1" [] rfl rfl rfl rfl rfl rfl rfl rfl

/-- Counterexample to C5 as stated: the code performs no local year check, so
a work the upstream returns without an integer `publication_year` is
normalized to `Year = 0`, which lies outside the requested valid range
`[2021, 2025]`. -/
theorem search_books_by_subject_c5_counterexample :
    ((2021 : Int) ≤ 2025)
    ∧ search_books_by_subject exTrNoYear (fun _ => 0) 2 "X" 2021 2025 5 none true
        = some (.ok [⟨"T", "", 0, "u", "X"⟩])
    ∧ ¬((2021 : Int) ≤ (⟨"T", "", 0, "u", "X"⟩ : Row).Year
        ∧ (⟨"T", "", 0, "u", "X"⟩ : Row).Year ≤ 2025) := by
  exact ⟨by omega, by decide, by decide⟩

/-- C5 amended: in a run whose upstream works all carry an integer
`publication_year` within the requested range `[a, b]` (what the request's
`publication_year:a-b` filter demands), every returned row's Year lies in
`[a, b]`; a work without an integer year would instead be normalized to
`Year = 0`, which may fall outside the range. -/
theorem search_books_by_subject_c5 (tr : Transport) (jit : Nat → ℚ)
    (fuel : Nat) (subject : String) (start_year end_year : Int)
    (max_results : Nat) (mailto : Option String) (oa_only : Bool)
    (rows : List Row) (hab : start_year ≤ end_year)
    (hup : ∀ p i w, w ∈ (tr.works p i).results →
      ∃ y, w.publication_year = some y ∧ start_year ≤ y ∧ y ≤ end_year)
    (h : search_books_by_subject tr jit fuel subject start_year end_year
      max_results mailto oa_only = some (.ok rows)) :
    ∀ r ∈ rows, start_year ≤ r.Year ∧ r.Year ≤ end_year := by
  intro r hr
  obtain ⟨-, hmem⟩ := search_ok_spec tr jit fuel subject start_year end_year
    max_results mailto oa_only rows h
  obtain ⟨-, p, i, w, hw, he⟩ := hmem r hr
  obtain ⟨y, hy, h1, h2⟩ := hup p i w hw
  rw [he]
  show start_year ≤ w.publication_year.getD 0 ∧ w.publication_year.getD 0 ≤ end_year
  rw [hy]
  exact ⟨h1, h2⟩

/-- Witness for C5 at `exTrCap` (years 2022 and 2023, both within
`[2021, 2025]`). -/
theorem search_books_by_subject_c5_witness :
    (2021 : Int) ≤ (⟨"T", "A", 2022, "u1", "X"⟩ : Row).Year
    ∧ (⟨"T", "A", 2022, "u1", "X"⟩ : Row).Year ≤ 2025 := by
  have h := search_books_by_subject_c5 exTrCap (fun _ => 0) 2 "X" 2021 2025 2
    none true [⟨"T", "A", 2022, "u1", "X"⟩, ⟨"T", "A", 2023, "u2", "X"⟩]
    (by omega)
    (by
      intro p i w hw
      simp only [exTrCap] at hw
      fin_cases hw
      · exact ⟨2022, rfl, by omega, by omega⟩
      · exact ⟨2023, rfl, by omega, by omega⟩
      · exact ⟨2024, rfl, by omega, by omega⟩)
    (by decide)
  exact h ⟨"T", "A", 2022, "u1", "X"⟩ (by decide)

/-- C6: in the orchestrator's subject loop with open-access filtering
requested, when the fetch for a subject returns fewer than
`max_results / 5` rows, the loop re-fetches that subject without the
open-access filter and appends those rows right after the first pass's rows
(no deduplication — the accumulator is extended with both lists verbatim);
when the fetch returns at least `max_results / 5` rows, only the first pass's
rows are appended. -/
theorem subjectLoop_c6 (tr : Transport) (jit : Nat → ℚ) (fuel : Nat)
    (start_year end_year : Int) (max_results : Nat) (mailto : Option String)
    (subject : String) (rest : List String) (results rows rows2 : List Row)
    (h1 : search_books_by_subject tr jit fuel subject start_year end_year
      max_results mailto true = some (.ok rows))
    (h2 : search_books_by_subject tr jit fuel subject start_year end_year
      max_results mailto false = some (.ok rows2)) :
    (rows.length < max_results / 5 →
      subjectLoop tr jit fuel start_year end_year max_results mailto true
          (subject :: rest) results
        = subjectLoop tr jit fuel start_year end_year max_results mailto true
          rest ((results ++ rows) ++ rows2))
    ∧ (max_results / 5 ≤ rows.length →
      subjectLoop tr jit fuel start_year end_year max_results mailto true
          (subject :: rest) results
        = subjectLoop tr jit fuel start_year end_year max_results mailto true
          rest (results ++ rows)) := by
  constructor <;> intro hlt
  · rw [subjectLoop, h1]
    simp only
    rw [if_pos ⟨trivial, hlt⟩, h2]
  · rw [subjectLoop, h1]
    simp only
    rw [if_neg fun hc => absurd hc.2 (by omega)]

/-- Witness for C6 at `exTrFallback`, cap 10: the open-access pass finds one
row (fewer than `10 / 5 = 2`), so the loop appends the ten unfiltered rows
after it. -/
theorem subjectLoop_c6_witness :
    subjectLoop exTrFallback (fun _ => 0) 3 2021 2025 10 none true
        ["Marketing"] []
      = subjectLoop exTrFallback (fun _ => 0) 3 2021 2025 10 none true
        [] (([] ++ [⟨"T", "A", 2022, "u0", "Marketing"⟩])
          ++ List.replicate 10 ⟨"T", "A", 2022, "u", "Marketing"⟩) :=
  (subjectLoop_c6 exTrFallback (fun _ => 0) 3 2021 2025 10 none "Marketing" []
    [] [⟨"T", "A", 2022, "u0", "Marketing"⟩]
    (List.replicate 10 ⟨"T", "A", 2022, "u", "Marketing"⟩)
    (by decide) (by decide)).1 (by decide)

/-- C7: when the subject loop completes with an empty combined row list, the
handler responds with HTTP 404 and the JSON message payload; when the
combined list is non-empty, the handler produces a response, and any response
it produces carries status 200 and is not a message payload (in particular not
a 404). -/
theorem get_books_c7 (tr : Transport) (jit : Nat → ℚ) (fuel : Nat)
    (subjects : String) (start_year end_year : Int) (max_results : Nat)
    (mailto : Option String) (oa_only : Bool) (fmt : String) (out : List Row)
    (h : subjectLoop tr jit fuel start_year end_year max_results mailto oa_only
      (splitSubjects subjects) [] = some (.ok out)) :
    (out = [] → get_books tr jit fuel subjects start_year end_year max_results
        mailto oa_only fmt
      = some (.ok (.message 404 "No results found for given subjects.")))
    ∧ (out ≠ [] →
        (∃ resp, get_books tr jit fuel subjects start_year end_year max_results
          mailto oa_only fmt = some (.ok resp))
        ∧ ∀ resp, get_books tr jit fuel subjects start_year end_year max_results
            mailto oa_only fmt = some (.ok resp) →
          resp.statusOf = 200 ∧ ∀ s msg, resp ≠ .message s msg) := by
  constructor
  · intro he
    subst he
    rw [get_books, h]
    rfl
  · intro hne
    have hemp : out.isEmpty = false := by
      cases out with
      | nil => exact absurd rfl hne
      | cons a l => rfl
    rw [get_books, h]
    simp only [hemp, Bool.false_eq_true, if_false]
    by_cases hf : fmt = "csv"
    · rw [if_pos hf]
      refine ⟨⟨_, rfl⟩, fun resp hresp => ?_⟩
      simp only [Option.some_inj, Except.ok.injEq] at hresp
      subst hresp
      exact ⟨rfl, fun s msg hmsg => ApiResponse.noConfusion hmsg⟩
    · rw [if_neg hf]
      refine ⟨⟨_, rfl⟩, fun resp hresp => ?_⟩
      simp only [Option.some_inj, Except.ok.injEq] at hresp
      subst hresp
      exact ⟨rfl, fun s msg hmsg => ApiResponse.noConfusion hmsg⟩

/-- Witness for C7: `exTrEmpty` yields no rows and the 404 message; `exTrSort`
yields six rows and a 200 JSON array, which is not the 404 message. -/
theorem get_books_c7_witness :
    get_books exTrEmpty (fun _ => 0) 3 "X" 2021 2025 50 none true "json"
      = some (.ok (.message 404 "No results found for given subjects."))
    ∧ (ApiResponse.json 200 (sortYearDesc
        [⟨"T", "A", 2024, "a", "A"⟩, ⟨"T", "A", 2022, "b", "A"⟩,
         ⟨"T", "A", 2023, "c", "A"⟩, ⟨"T", "A", 2024, "a", "A"⟩,
         ⟨"T", "A", 2022, "b", "A"⟩, ⟨"T", "A", 2023, "c", "A"⟩])).statusOf = 200
      ∧ ApiResponse.json 200 (sortYearDesc
        [⟨"T", "A", 2024, "a", "A"⟩, ⟨"T", "A", 2022, "b", "A"⟩,
         ⟨"T", "A", 2023, "c", "A"⟩, ⟨"T", "A", 2024, "a", "A"⟩,
         ⟨"T", "A", 2022, "b", "A"⟩, ⟨"T", "A", 2023, "c", "A"⟩])
        ≠ .message 404 "No results found for given subjects." := by
  constructor
  · exact (get_books_c7 exTrEmpty (fun _ => 0) 3 "X" 2021 2025 50 none true
      "json" [] (by decide)).1 rfl
  · have h := (get_books_c7 exTrSort (fun _ => 0) 3 "A" 2021 2025 50 none true
      "json"
      [⟨"T", "A", 2024, "a", "A"⟩, ⟨"T", "A", 2022, "b", "A"⟩,
       ⟨"T", "A", 2023, "c", "A"⟩, ⟨"T", "A", 2024, "a", "A"⟩,
       ⟨"T", "A", 2022, "b", "A"⟩, ⟨"T", "A", 2023, "c", "A"⟩]
      (by decide)).2 (by decide)
    have h2 := h.2 (ApiResponse.json 200 (sortYearDesc
      [⟨"T", "A", 2024, "a", "A"⟩, ⟨"T", "A", 2022, "b", "A"⟩,
       ⟨"T", "A", 2023, "c", "A"⟩, ⟨"T", "A", 2024, "a", "A"⟩,
       ⟨"T", "A", 2022, "b", "A"⟩, ⟨"T", "A", 2023, "c", "A"⟩])) (by decide)
    exact ⟨h2.1, h2.2 404 "No results found for given subjects."⟩

/-! Lemmas about the stable Year-descending sort. -/

/-- Inserting a row permutes it to the front. -/
lemma insertYearDesc_perm (x : Row) (l : List Row) :
    (insertYearDesc x l).Perm (x :: l) := by
  induction l with
  | nil => exact List.Perm.refl _
  | cons y ys ih =>
    rw [insertYearDesc]
    by_cases h : y.Year ≤ x.Year
    · rw [if_pos h]
    · rw [if_neg h]
      exact (ih.cons y).trans (List.Perm.swap x y ys)

/-- The sort permutes its input. -/
lemma sortYearDesc_perm (l : List Row) : (sortYearDesc l).Perm l := by
  induction l with
  | nil => exact List.Perm.refl _
  | cons x xs ih =>
    rw [sortYearDesc]
    exact (insertYearDesc_perm x (sortYearDesc xs)).trans (ih.cons x)

/-- Inserting into a Year-descending list keeps it Year-descending. -/
lemma insertYearDesc_pairwise (x : Row) (l : List Row)
    (h : l.Pairwise fun a b => b.Year ≤ a.Year) :
    (insertYearDesc x l).Pairwise fun a b => b.Year ≤ a.Year := by
  induction l with
  | nil => simp [insertYearDesc]
  | cons y ys ih =>
    rw [List.pairwise_cons] at h
    obtain ⟨hy, hys⟩ := h
    rw [insertYearDesc]
    by_cases hc : y.Year ≤ x.Year
    · rw [if_pos hc, List.pairwise_cons]
      refine ⟨fun z hz => ?_, List.pairwise_cons.2 ⟨hy, hys⟩⟩
      rcases List.mem_cons.1 hz with rfl | hz
      · exact hc
      · exact le_trans (hy z hz) hc
    · rw [if_neg hc, List.pairwise_cons]
      refine ⟨fun z hz => ?_, ih hys⟩
      rcases List.mem_cons.1 ((insertYearDesc_perm x ys).mem_iff.1 hz) with rfl | hz'
      · omega
      · exact hy z hz'

/-- The sort's output is Year-descending. -/
lemma sortYearDesc_pairwise (l : List Row) :
    (sortYearDesc l).Pairwise fun a b => b.Year ≤ a.Year := by
  induction l with
  | nil => simp [sortYearDesc]
  | cons x xs ih => exact insertYearDesc_pairwise x (sortYearDesc xs) ih

/-- Insertion is invisible to the fibre of any single Year value: the rows
with that Year, in order, are the inserted row (when it has that Year)
followed by the ones already present, because the insertion point is preceded
only by rows with strictly larger Year. -/
lemma insertYearDesc_filter (x : Row) (l : List Row) (y : Int) :
    (insertYearDesc x l).filter (fun r => r.Year == y)
      = (x :: l).filter fun r => r.Year == y := by
  induction l with
  | nil => rfl
  | cons z zs ih =>
    rw [insertYearDesc]
    by_cases hc : z.Year ≤ x.Year
    · rw [if_pos hc]
    · rw [if_neg hc]
      by_cases hx : x.Year = y
      · by_cases hz : z.Year = y
        · omega
        · simp only [List.filter_cons, ih]
          simp [hx, hz]
      · by_cases hz : z.Year = y
        · simp only [List.filter_cons, ih]
          simp [hx, hz]
        · simp only [List.filter_cons, ih]
          simp [hx, hz]

/-- Stability of the sort: for every Year value, the rows carrying that Year
appear in the output in exactly their input order. -/
lemma sortYearDesc_filter (l : List Row) (y : Int) :
    (sortYearDesc l).filter (fun r => r.Year == y)
      = l.filter fun r => r.Year == y := by
  induction l with
  | nil => rfl
  | cons x xs ih =>
    rw [sortYearDesc, insertYearDesc_filter, List.filter_cons, List.filter_cons, ih]

/-- C9: any response the handler produces from a non-empty combined list `out`
carries exactly the stable Year-descending sort of `out`: the rows are
pairwise in weakly decreasing Year order, they are a permutation of the
accumulated rows, and rows of equal Year keep their relative accumulation
order (the fibre of every Year value is unchanged). -/
theorem get_books_c9 (tr : Transport) (jit : Nat → ℚ) (fuel : Nat)
    (subjects : String) (start_year end_year : Int) (max_results : Nat)
    (mailto : Option String) (oa_only : Bool) (fmt : String) (out : List Row)
    (resp : ApiResponse)
    (hloop : subjectLoop tr jit fuel start_year end_year max_results mailto
      oa_only (splitSubjects subjects) [] = some (.ok out))
    (hne : out ≠ [])
    (h : get_books tr jit fuel subjects start_year end_year max_results mailto
      oa_only fmt = some (.ok resp)) :
    resp.rowsOf = sortYearDesc out
    ∧ (resp.rowsOf.Pairwise fun a b => b.Year ≤ a.Year)
    ∧ resp.rowsOf.Perm out
    ∧ ∀ y, resp.rowsOf.filter (fun r => r.Year == y)
        = out.filter fun r => r.Year == y := by
  have hemp : out.isEmpty = false := by
    cases out with
    | nil => exact absurd rfl hne
    | cons a l => rfl
  rw [get_books, hloop] at h
  simp only [hemp, Bool.false_eq_true, if_false] at h
  have hrows : resp.rowsOf = sortYearDesc out := by
    by_cases hf : fmt = "csv"
    · rw [if_pos hf] at h
      simp only [Option.some_inj, Except.ok.injEq] at h
      rw [← h]
      rfl
    · rw [if_neg hf] at h
      simp only [Option.some_inj, Except.ok.injEq] at h
      rw [← h]
      rfl
  rw [hrows]
  exact ⟨rfl, sortYearDesc_pairwise out, sortYearDesc_perm out,
    fun y => sortYearDesc_filter out y⟩

/-- Witness for C9 at `exTrSort`: six rows with interleaved years 2024, 2022,
2023 (each twice), checking the fibre at Year 2022. -/
theorem get_books_c9_witness :
    (ApiResponse.json 200 (sortYearDesc
        [⟨"T", "A", 2024, "a", "A"⟩, ⟨"T", "A", 2022, "b", "A"⟩,
         ⟨"T", "A", 2023, "c", "A"⟩, ⟨"T", "A", 2024, "a", "A"⟩,
         ⟨"T", "A", 2022, "b", "A"⟩, ⟨"T", "A", 2023, "c", "A"⟩])).rowsOf
      = sortYearDesc
        [⟨"T", "A", 2024, "a", "A"⟩, ⟨"T", "A", 2022, "b", "A"⟩,
         ⟨"T", "A", 2023, "c", "A"⟩, ⟨"T", "A", 2024, "a", "A"⟩,
         ⟨"T", "A", 2022, "b", "A"⟩, ⟨"T", "A", 2023, "c", "A"⟩]
    ∧ ((ApiResponse.json 200 (sortYearDesc
        [⟨"T", "A", 2024, "a", "A"⟩, ⟨"T", "A", 2022, "b", "A"⟩,
         ⟨"T", "A", 2023, "c", "A"⟩, ⟨"T", "A", 2024, "a", "A"⟩,
         ⟨"T", "A", 2022, "b", "A"⟩,
         ⟨"T", "A", 2023, "c", "A"⟩])).rowsOf.Pairwise
        fun a b => b.Year ≤ a.Year)
    ∧ (ApiResponse.json 200 (sortYearDesc
        [⟨"T", "A", 2024, "a", "A"⟩, ⟨"T", "A", 2022, "b", "A"⟩,
         ⟨"T", "A", 2023, "c", "A"⟩, ⟨"T", "A", 2024, "a", "A"⟩,
         ⟨"T", "A", 2022, "b", "A"⟩,
         ⟨"T", "A", 2023, "c", "A"⟩])).rowsOf.filter
          (fun r => r.Year == (2022 : Int))
      = List.filter (fun r => r.Year == (2022 : Int))
        [⟨"T", "A", 2024, "a", "A"⟩, ⟨"T", "A", 2022, "b", "A"⟩,
         ⟨"T", "A", 2023, "c", "A"⟩, ⟨"T", "A", 2024, "a", "A"⟩,
         ⟨"T", "A", 2022, "b", "A"⟩, ⟨"T", "A", 2023, "c", "A"⟩] := by
  have h := get_books_c9 exTrSort (fun _ => 0) 3 "A" 2021 2025 50 none true
    "json"
    [⟨"T", "A", 2024, "a", "A"⟩, ⟨"T", "A", 2022, "b", "A"⟩,
     ⟨"T", "A", 2023, "c", "A"⟩, ⟨"T", "A", 2024, "a", "A"⟩,
     ⟨"T", "A", 2022, "b", "A"⟩, ⟨"T", "A", 2023, "c", "A"⟩]
    (ApiResponse.json 200 (sortYearDesc
      [⟨"T", "A", 2024, "a", "A"⟩, ⟨"T", "A", 2022, "b", "A"⟩,
       ⟨"T", "A", 2023, "c", "A"⟩, ⟨"T", "A", 2024, "a", "A"⟩,
       ⟨"T", "A", 2022, "b", "A"⟩, ⟨"T", "A", 2023, "c", "A"⟩]))
    (by decide) (by decide) (by decide)
  exact ⟨h.1, h.2.1, h.2.2.2 2022⟩

/-! Helper lemmas about the subject loop, for the per-subject bounds. -/

/-- An exhausted subject list leaves the accumulator untouched. -/
lemma subjectLoop_nil_ok (tr : Transport) (jit : Nat → ℚ) (fuel : Nat)
    (start_year end_year : Int) (max_results : Nat) (mailto : Option String)
    (oa_only : Bool) (results out : List Row)
    (h : subjectLoop tr jit fuel start_year end_year max_results mailto oa_only
      [] results = some (.ok out)) : results = out := by
  rw [subjectLoop] at h
  simpa using h

/-- Processing one subject appends a block of rows all tagged with that
subject, of size at most `max_results` plus, when the open-access fallback
fires (which requires the first pass to return fewer than `max_results / 5`
rows), at most `max_results / 5 - 1` further first-pass rows ahead of the
up-to-`max_results` fallback rows. -/
lemma subjectLoop_cons_ok (tr : Transport) (jit : Nat → ℚ) (fuel : Nat)
    (start_year end_year : Int) (max_results : Nat) (mailto : Option String)
    (oa_only : Bool) (s : String) (rest : List String) (results out : List Row)
    (h : subjectLoop tr jit fuel start_year end_year max_results mailto oa_only
      (s :: rest) results = some (.ok out)) :
    ∃ contrib,
      subjectLoop tr jit fuel start_year end_year max_results mailto oa_only
        rest (results ++ contrib) = some (.ok out)
      ∧ (∀ r ∈ contrib, r.Subject = s)
      ∧ contrib.length ≤ max_results + (max_results / 5 - 1) := by
  rw [subjectLoop] at h
  cases hse : search_books_by_subject tr jit fuel s start_year end_year
      max_results mailto oa_only with
  | none => rw [hse] at h; simp at h
  | some res =>
    rw [hse] at h
    cases res with
    | error e => simp at h
    | ok rows =>
      obtain ⟨hlen, hsub⟩ := search_ok_spec tr jit fuel s start_year end_year
        max_results mailto oa_only rows hse
      simp only at h
      by_cases hcond : (oa_only = true) ∧ rows.length < max_results / 5
      · rw [if_pos hcond] at h
        cases hse2 : search_books_by_subject tr jit fuel s start_year end_year
            max_results mailto false with
        | none => rw [hse2] at h; simp at h
        | some res2 =>
          rw [hse2] at h
          cases res2 with
          | error e => simp at h
          | ok rows2 =>
            obtain ⟨hlen2, hsub2⟩ := search_ok_spec tr jit fuel s start_year
              end_year max_results mailto false rows2 hse2
            simp only at h
            refine ⟨rows ++ rows2, ?_, ?_, ?_⟩
            · rw [List.append_assoc] at h
              exact h
            · intro r hr
              rcases List.mem_append.1 hr with h' | h'
              · exact (hsub r h').1
              · exact (hsub2 r h').1
            · rw [List.length_append]
              omega
      · rw [if_neg hcond] at h
        exact ⟨rows, h, fun r hr => (hsub r hr).1, by omega⟩

/-- Counterexample to C8 as stated: against `exTrFallback` with
`subjects = "Marketing,Chemistry"`, `max_results = 10` and `oa_only = true`,
each subject's open-access pass finds 1 row (fewer than `10 / 5`), so the
fallback re-fetch appends 10 more rows per subject: the response holds
22 rows (more than 20), 11 of them (more than 10) for subject Marketing. -/
theorem get_books_c8_counterexample :
    (get_books exTrFallback (fun _ => 0) 3 "Marketing,Chemistry" 2021 2025 10
        none true "json").map
      (Except.map fun r => (r.rowsOf.length,
        r.rowsOf.countP fun x => x.Subject == "Marketing"))
      = some (.ok (22, 11))
    ∧ 20 < 22 ∧ 10 < 11 := by
  exact ⟨by decide, by omega, by omega⟩

/-- C8 amended: in the two-subject scenario with `max_results = 10` and
`oa_only = true`, every response holds at most 22 rows — at most 11 per
subject: up to 10 from one pass, plus up to `10 / 5 - 1 = 1` first-pass row
when the open-access fallback re-fetch fires — and every row's Subject is one
of the two requested subject strings. -/
theorem get_books_c8 (tr : Transport) (jit : Nat → ℚ) (fuel : Nat)
    (start_year end_year : Int) (mailto : Option String) (fmt : String)
    (resp : ApiResponse)
    (h : get_books tr jit fuel "Marketing,Chemistry" start_year end_year 10
      mailto true fmt = some (.ok resp)) :
    resp.rowsOf.length ≤ 22
    ∧ (∀ r ∈ resp.rowsOf, r.Subject = "Marketing" ∨ r.Subject = "Chemistry")
    ∧ (resp.rowsOf.countP fun r => r.Subject == "Marketing") ≤ 11
    ∧ (resp.rowsOf.countP fun r => r.Subject == "Chemistry") ≤ 11 := by
  have hsplit : splitSubjects "Marketing,Chemistry" = ["Marketing", "Chemistry"] :=
    by decide
  rw [get_books, hsplit] at h
  cases hloop : subjectLoop tr jit fuel start_year end_year 10 mailto true
      ["Marketing", "Chemistry"] [] with
  | none => rw [hloop] at h; simp at h
  | some res =>
    rw [hloop] at h
    cases res with
    | error e => simp at h
    | ok out =>
      obtain ⟨cM, hM, hsubM, hlenM⟩ := subjectLoop_cons_ok tr jit fuel
        start_year end_year 10 mailto true "Marketing" ["Chemistry"] [] out hloop
      obtain ⟨cC, hC, hsubC, hlenC⟩ := subjectLoop_cons_ok tr jit fuel
        start_year end_year 10 mailto true "Chemistry" [] ([] ++ cM) out hM
      have hout : (([] ++ cM) ++ cC) = out := subjectLoop_nil_ok tr jit fuel
        start_year end_year 10 mailto true (([] ++ cM) ++ cC) out hC
      simp only [List.nil_append] at hout
      by_cases hemp : out.isEmpty
      · simp only [hemp, if_true] at h
        simp only [Option.some_inj, Except.ok.injEq] at h
        rw [← h]
        exact ⟨by simp [ApiResponse.rowsOf], by simp [ApiResponse.rowsOf],
          by simp [ApiResponse.rowsOf], by simp [ApiResponse.rowsOf]⟩
      · simp only [hemp, Bool.false_eq_true, if_false] at h
        have hrows : resp.rowsOf = sortYearDesc out := by
          by_cases hf : fmt = "csv"
          · rw [if_pos hf] at h
            simp only [Option.some_inj, Except.ok.injEq] at h
            rw [← h]
            rfl
          · rw [if_neg hf] at h
            simp only [Option.some_inj, Except.ok.injEq] at h
            rw [← h]
            rfl
        have hperm : resp.rowsOf.Perm out := hrows ▸ sortYearDesc_perm out
        have hlen : out.length = cM.length + cC.length := by
          rw [← hout, List.length_append]
        have hcM0 : (cC.countP fun r => r.Subject == "Marketing") = 0 := by
          rw [List.countP_eq_zero]
          intro r hr
          simp [hsubC r hr]
        have hcC0 : (cM.countP fun r => r.Subject == "Chemistry") = 0 := by
          rw [List.countP_eq_zero]
          intro r hr
          simp [hsubM r hr]
        refine ⟨?_, ?_, ?_, ?_⟩
        · rw [hperm.length_eq, hlen]
          omega
        · intro r hr
          have hro : r ∈ out := hperm.mem_iff.1 hr
          rw [← hout] at hro
          rcases List.mem_append.1 hro with h' | h'
          · exact Or.inl (hsubM r h')
          · exact Or.inr (hsubC r h')
        · rw [hperm.countP_eq, ← hout, List.countP_append, hcM0]
          have := List.countP_le_length (l := cM)
            (p := fun r => r.Subject == "Marketing")
          omega
        · rw [hperm.countP_eq, ← hout, List.countP_append, hcC0]
          have := List.countP_le_length (l := cC)
            (p := fun r => r.Subject == "Chemistry")
          omega

/-- Witness for C8 at `exTrFallback`: the 22-row response respects the
amended per-subject and total bounds, and its first row is a Marketing row. -/
theorem get_books_c8_witness :
    (ApiResponse.json 200 (sortYearDesc
        ((([] ++ [⟨"T", "A", 2022, "u0", "Marketing"⟩])
          ++ List.replicate 10 ⟨"T", "A", 2022, "u", "Marketing"⟩)
          ++ ([⟨"T", "A", 2022, "u0", "Chemistry"⟩]
          ++ List.replicate 10 ⟨"T", "A", 2022, "u", "Chemistry"⟩)))).rowsOf.length
      ≤ 22
    ∧ ((⟨"T", "A", 2022, "u0", "Marketing"⟩ : Row).Subject = "Marketing"
        ∨ (⟨"T", "A", 2022, "u0", "Marketing"⟩ : Row).Subject = "Chemistry") := by
  have h := get_books_c8 exTrFallback (fun _ => 0) 3 2021 2025 none "json"
    (ApiResponse.json 200 (sortYearDesc
      ((([] ++ [⟨"T", "A", 2022, "u0", "Marketing"⟩])
        ++ List.replicate 10 ⟨"T", "A", 2022, "u", "Marketing"⟩)
        ++ ([⟨"T", "A", 2022, "u0", "Chemistry"⟩]
        ++ List.replicate 10 ⟨"T", "A", 2022, "u", "Chemistry"⟩))))
    (by decide)
  exact ⟨h.1, h.2.1 ⟨"T", "A", 2022, "u0", "Marketing"⟩ (by decide)⟩

end OA
